import Mathlib

/-!
Verification of the Nmap executor node (`src/NmapExecutor.node.ts`).

The development shallowly embeds the node's `execute` pipeline: flag
derivation from the scan mode, command building, subprocess invocation
(modelled by an oracle `proc : String → Rat → ProcResult` standing for
`child_process.exec` applied to a command line and a timeout in
milliseconds), the `-Pn` resiliency retry, XML summarisation
(`makeSummary` over a JS-value tree produced by an `xml2js` oracle), and
the newline-delimited JSON history sink.

JavaScript-specific behaviour is modelled explicitly: `Number(x) || 60`
truthiness (`none` stands for NaN), `String.prototype.includes`,
the case-insensitive regex `/host.*down/i` (`.` not matching line
terminators), property access throwing on `undefined`, and optional
chaining. JSON serialisation (`JSON.stringify`) is modelled by a
canonical renderer over a JSON AST together with a fuel-indexed parser
used to state the history round-trip property.
-/

namespace NmapNode

/-- Substring test: `listIncludes pat s` is true iff `pat` occurs
contiguously inside `s`; models JavaScript `s.includes(pat)` on the
underlying character lists. -/
def listIncludes (pat : List Char) : List Char → Bool
  | [] => pat.isEmpty
  | c :: rest => List.isPrefixOf pat (c :: rest) || listIncludes pat rest

/-- JavaScript `s.includes(pat)`. -/
def jsIncludes (s pat : String) : Bool :=
  listIncludes pat.data s.data

/-- JavaScript `a || b` on strings: the empty string is falsy. -/
def jsOrString (a b : String) : String :=
  if a = "" then b else a

/-- JavaScript `v || d` on numbers, where `none` stands for `NaN`:
`NaN` and `0` are falsy. -/
def jsOrNum (v : Option Rat) (d : Rat) : Rat :=
  match v with
  | none => d
  | some x => if x = 0 then d else x

/-- Per-item input parameters, as read by `execute` via
`getNodeParameter` (lines 138–144 of the source). `timeoutValue` is the
result of the JavaScript `Number(...)` coercion applied to the raw
`timeout` parameter, with `none` standing for `NaN`. -/
structure ItemParams where
  target : String
  scanMode : String
  smartResult : Bool
  saveHistory : Bool
  outputFormat : String
  timeoutValue : Option Rat
  nmapPathRaw : String
  customFlags : String
  nseScripts : List String
deriving Repr

/-- Line 143: `const timeout = Number(this.getNodeParameter('timeout', i)) || 60`. -/
def coercedTimeout (p : ItemParams) : Rat :=
  jsOrNum p.timeoutValue 60

/-- The `timeout` option handed to `exec` (line 168): `timeout * 1000`
milliseconds. -/
def effectiveTimeoutMs (p : ItemParams) : Rat :=
  coercedTimeout p * 1000

/-- Line 144: `this.getNodeParameter('nmapPath', i) as string || 'nmap'`. -/
def effectiveNmapPath (p : ItemParams) : String :=
  jsOrString p.nmapPathRaw "nmap"

/-- Flag derivation, lines 146–155 of the source: the `let flags = ''`
initialisation followed by the `if`/`else if` chain on `scanMode`. -/
def deriveFlags (p : ItemParams) : String :=
  if p.scanMode = "fast" then "-T4 -F"
  else if p.scanMode = "full" then "-T4 -p1-65535"
  else if p.scanMode = "version" then "-sV"
  else if p.scanMode = "os" then "-O"
  else if p.scanMode = "custom" then p.customFlags
  else if p.scanMode = "nse" then
    if p.nseScripts.isEmpty then "" else "--script " ++ String.intercalate "," p.nseScripts
  else ""

/-- Format flag derivation, lines 157–159. -/
def deriveFormatFlag (outputFormat : String) : String :=
  if outputFormat = "xml" then "-oX -"
  else if outputFormat = "grep" then "-oG -"
  else ""

/-- Line 163 and line 207: the command-line template
`"${nmapPath}" ${flags} ${formatFlag} "${target}"`. -/
def buildCmd (nmapPath flags formatFlag target : String) : String :=
  "\"" ++ nmapPath ++ "\" " ++ flags ++ " " ++ formatFlag ++ " \"" ++ target ++ "\""

/-- Outcome of one `child_process.exec` call: exit with status zero
(callback `error` is null, carrying `stdout`), or an execution error
carrying the error's `message` together with the captured partial
`stdout` and `stderr`. -/
inductive ProcResult where
  | ok (stdout : String)
  | failed (message stdout stderr : String)
deriving Repr, DecidableEq

/-- The rejection payload built at lines 170–177 of `runNmap`. -/
structure Failure where
  message : String
  details : String
  cmd : String
  stdout : String
  stderr : String
deriving Repr, DecidableEq

/-- The resolution payload built at lines 179–186 of `runNmap`. Its
`flags` field is the closed-over per-item `flags` variable, not the
flags embedded in `cmd`. -/
structure Success where
  target : String
  cmd : String
  output : String
  format : String
  flags : String
deriving Repr, DecidableEq

/-- The `runNmap` helper (lines 166–190): one `exec` invocation of
`cmdToRun` with the per-item timeout, resolving to a `Success` record
or rejecting with a `Failure` record. `error.message` fills `details`
only when `stderr` is falsy (empty), per `stderr || error.message`. -/
def runNmap (target outputFormat flags : String) (timeoutMs : Rat)
    (proc : String → Rat → ProcResult) (cmdToRun : String) : Except Failure Success :=
  match proc cmdToRun timeoutMs with
  | .failed msg stdout stderr =>
      .error { message := "Nmap execution failed", details := jsOrString stderr msg,
               cmd := cmdToRun, stdout := stdout, stderr := stderr }
  | .ok stdout =>
      .ok { target := target, cmd := cmdToRun, output := stdout,
            format := outputFormat, flags := flags }

/-- A character matched by `.` in a JavaScript regex without the `s`
flag: anything but a line terminator. -/
def jsDotMatches (c : Char) : Bool :=
  !(c = '\n' || c = '\r' || c = Char.ofNat 0x2028 || c = Char.ofNat 0x2029)

/-- Match of `.*down` starting at the current position: either `down`
occurs here, or the head character is consumed by `.` and the match
continues. -/
def findDown : List Char → Bool
  | [] => false
  | c :: rest => List.isPrefixOf "down".data (c :: rest) || (jsDotMatches c && findDown rest)

/-- Match of `/host.*down/` anywhere in the (already lower-cased) text. -/
def findHostDown : List Char → Bool
  | [] => false
  | c :: rest =>
      (List.isPrefixOf "host".data (c :: rest) && findDown (List.drop 4 (c :: rest)))
        || findHostDown rest

/-- Line 200: `err.details.match(/host.*down/i)` is truthy. The `i` flag
is modelled by lower-casing the subject (the pattern itself is already
lower case). -/
def matchesHostDown (s : String) : Bool :=
  findHostDown (s.data.map Char.toLower)

/-- The three host-unreachable patterns of lines 198–200, without the
truthiness guard on `err.details`. -/
def unreachablePattern (details : String) : Bool :=
  jsIncludes details "0 hosts up" || jsIncludes details "Failed to resolve"
    || matchesHostDown details

/-- The full `downMsg` condition of lines 196–201: `err.details` is a
non-empty string (truthy) and one of the three patterns matches. -/
def isHostUnreachable (details : String) : Bool :=
  !(details == "") && unreachablePattern details

/-- The `resiliency` annotation attached at lines 210–214 and 218–223. -/
structure Resiliency where
  triggered : Bool
  msg : String
  firstError : Failure
deriving Repr, DecidableEq

/-- The per-item `scanResult` after the try/catch of lines 192–230: the
final attempt's outcome, with the `resiliency` field when a retry took
place. -/
structure ScanResult where
  result : Except Failure Success
  resiliency : Option Resiliency
deriving Repr

/-- A scan trace: the final `scanResult` plus the list of command lines
handed to `exec`, in order of invocation. -/
structure ScanTrace where
  scanResult : ScanResult
  invoked : List String
deriving Repr

/-- Lines 146–230 for one item: derive flags, build the command, run it,
and on a classified host-unreachable failure retry once with `-Pn`
appended to the flags. -/
def processScan (p : ItemParams) (proc : String → Rat → ProcResult) : ScanTrace :=
  let flags := deriveFlags p
  let formatFlag := deriveFormatFlag p.outputFormat
  let nmapPath := effectiveNmapPath p
  let tms := effectiveTimeoutMs p
  let cmd := buildCmd nmapPath flags formatFlag p.target
  match runNmap p.target p.outputFormat flags tms proc cmd with
  | .ok s => ⟨⟨.ok s, none⟩, [cmd]⟩
  | .error err =>
      if isHostUnreachable err.details && !(jsIncludes flags "-Pn") then
        let resilientFlags := flags ++ " -Pn"
        let resilientCmd := buildCmd nmapPath resilientFlags formatFlag p.target
        match runNmap p.target p.outputFormat flags tms proc resilientCmd with
        | .ok s2 =>
            ⟨⟨.ok s2, some ⟨true, "First scan failed, retried with -Pn.", err⟩⟩,
              [cmd, resilientCmd]⟩
        | .error err2 =>
            ⟨⟨.error err2, some ⟨true, "Scan failed even after retrying with -Pn.", err⟩⟩,
              [cmd, resilientCmd]⟩
      else ⟨⟨.error err, none⟩, [cmd]⟩

/-- A JavaScript value as produced by `xml2js.parseStringPromise` with
`explicitArray: false`: strings, plain objects, arrays, and `undefined`
(the result of reading an absent property). -/
inductive JVal where
  | undefined
  | str (s : String)
  | obj (fields : List (String × JVal))
  | arr (elems : List JVal)
deriving Repr

/-- First binding of `key` in an object's field list; `undefined` when
absent (JavaScript objects cannot hold a key twice at runtime). -/
def getField : List (String × JVal) → String → JVal
  | [], _ => .undefined
  | (k, v) :: fs, key => if k = key then v else getField fs key

/-- JavaScript property read `a[key]`: throws a `TypeError` when `a` is
`undefined`, yields `undefined` for a missing key or a non-object base,
and the bound value for an object. The `Except Unit` error is the thrown
exception. -/
def JVal.get (a : JVal) (key : String) : Except Unit JVal :=
  match a with
  | .undefined => .error ()
  | .obj fs => .ok (getField fs key)
  | _ => .ok .undefined

/-- Whether the value is `undefined` (the nullish test of `?.`). -/
def JVal.isUndefined : JVal → Bool
  | .undefined => true
  | _ => false

/-- JavaScript `Array.isArray`. -/
def JVal.isArr : JVal → Bool
  | .arr _ => true
  | _ => false

/-- JavaScript truthiness: `undefined` and the empty string are falsy,
every object and array (even empty) is truthy. -/
def jsTruthy : JVal → Bool
  | .undefined => false
  | .str s => !(s == "")
  | .obj _ => true
  | .arr _ => true

/-- JavaScript strict equality of a value against a string literal:
true only for the same string (an object is never `===` a string). -/
def jsEqStr (v : JVal) (s : String) : Bool :=
  match v with
  | .str t => t = s
  | _ => false

/-- JavaScript `v || d`. -/
def jsOrVal (v d : JVal) : JVal :=
  if jsTruthy v then v else d

/-- Optional-chained attribute read `base[k1]?.[k2][k3]`, e.g.
`host.status?.$.state` (line 280): the first read throws iff `base` is
`undefined`; a nullish first value short-circuits to `undefined`; then
the plain reads continue, so `.[k3]` throws when `base[k1][k2]` is
`undefined`. -/
def optAttr (base : JVal) (k1 k2 k3 : String) : Except Unit JVal := do
  let v1 ← base.get k1
  if v1.isUndefined then pure .undefined
  else do
    let v2 ← v1.get k2
    v2.get k3

/-- Line 280: `host.status?.$.state`. -/
def statusOf (host : JVal) : Except Unit JVal :=
  optAttr host "status" "$" "state"

/-- Line 281: `host.address?.$.addr`. -/
def addressOf (host : JVal) : Except Unit JVal :=
  optAttr host "address" "$" "addr"

/-- Line 282: `const ports = host.ports?.port`. -/
def portsOf (host : JVal) : Except Unit JVal := do
  let v1 ← host.get "ports"
  if v1.isUndefined then pure .undefined
  else v1.get "port"

/-- The filter predicate of line 285: `p.state.$.state === 'open'`
(no optional chaining, so each step throws on `undefined`). -/
def isOpenPort (p : JVal) : Except Unit Bool := do
  let s ← p.get "state"
  let d ← s.get "$"
  let v ← d.get "state"
  pure (jsEqStr v "open")

/-- Line 286: `ports.state?.$.state === 'open'` for the singular-shape
branch. -/
def singularOpenCheck (ports : JVal) : Except Unit Bool := do
  let s ← ports.get "state"
  if s.isUndefined then pure false
  else do
    let d ← s.get "$"
    let v ← d.get "state"
    pure (jsEqStr v "open")

/-- `Array.prototype.filter` over ports with the throwing predicate of
line 285, evaluated left to right. -/
def filterOpen : List JVal → Except Unit (List JVal)
  | [] => pure []
  | p :: ps => do
      let b ← isOpenPort p
      let rest ← filterOpen ps
      pure (if b then p :: rest else rest)

/-- Lines 283–288: normalise the `ports` value to the list of open
ports — filter when it is an array, wrap in a singleton when it is a
truthy non-array in the open state, else the empty list. -/
def computeOpenPorts (ports : JVal) : Except Unit (List JVal) :=
  match ports with
  | .arr ps => filterOpen ps
  | _ => do
      if jsTruthy ports then
        let b ← singularOpenCheck ports
        pure (if b then [ports] else [])
      else pure []

/-- One element of the `portList` mapping, lines 289–295. -/
structure PortEntry where
  port : JVal
  service : JVal
  product : JVal
  version : JVal
  extra : JVal
deriving Repr

/-- The pattern `p.service?.$.<k>` of lines 291–294. -/
def serviceAttr (p : JVal) (k : String) : Except Unit JVal := do
  let s ← p.get "service"
  if s.isUndefined then pure .undefined
  else do
    let d ← s.get "$"
    d.get k

/-- The object literal of lines 290–295, fields evaluated in source
order, each `|| ''` defaulting a falsy value to the empty string
(`port` has no default). -/
def portEntryOf (p : JVal) : Except Unit PortEntry := do
  let a ← p.get "$"
  let portid ← a.get "portid"
  let sv ← serviceAttr p "name"
  let pr ← serviceAttr p "product"
  let vr ← serviceAttr p "version"
  let ex ← serviceAttr p "extrainfo"
  pure ⟨portid, jsOrVal sv (.str ""), jsOrVal pr (.str ""),
        jsOrVal vr (.str ""), jsOrVal ex (.str "")⟩

/-- `openPorts.map(...)` of line 289, left to right. -/
def portEntries : List JVal → Except Unit (List PortEntry)
  | [] => pure []
  | p :: ps => do
      let e ← portEntryOf p
      let rest ← portEntries ps
      pure (e :: rest)

/-- One `nseResults` entry, lines 302–306. -/
structure ScriptFinding where
  port : JVal
  script : JVal
  output : JVal
deriving Repr

/-- The inner loop of lines 301–307 over the (already normalised)
script list of one port `p`. -/
def scriptList (p : JVal) : List JVal → Except Unit (List ScriptFinding)
  | [] => pure []
  | s :: ss => do
      let a ← p.get "$"
      let portid ← a.get "portid"
      let b ← s.get "$"
      let sid ← b.get "id"
      let out ← b.get "output"
      let rest ← scriptList p ss
      pure (⟨portid, sid, out⟩ :: rest)

/-- Lines 299–308 for one open port: the `if (p.script)` guard and the
singular/list normalisation `Array.isArray(p.script) ? p.script : [p.script]`. -/
def scriptFindingsOfPort (p : JVal) : Except Unit (List ScriptFinding) := do
  let sc ← p.get "script"
  if jsTruthy sc then
    scriptList p (match sc with | .arr l => l | _ => [sc])
  else pure []

/-- The `for (const p of openPorts)` loop of lines 297–310; the guard
`if (openPorts.length)` is the identity on the empty list. -/
def allScriptFindings : List JVal → Except Unit (List ScriptFinding)
  | [] => pure []
  | p :: ps => do
      let f ← scriptFindingsOfPort p
      let rest ← allScriptFindings ps
      pure (f ++ rest)

/-- The summary object returned at lines 311–317. -/
structure ScanSummary where
  address : JVal
  status : JVal
  openPorts : List PortEntry
  totalOpen : Nat
  vulns : List ScriptFinding
deriving Repr

/-- The body of `makeSummary`'s `try` block, lines 278–317, in source
order; a thrown `TypeError` is the `Except` error. -/
def makeSummaryCore (parsed : JVal) : Except Unit ScanSummary := do
  let nmaprun ← parsed.get "nmaprun"
  let host ← nmaprun.get "host"
  let st ← statusOf host
  let status := jsOrVal st (.str "unknown")
  let ad ← addressOf host
  let address := jsOrVal ad (.str "unknown")
  let ports ← portsOf host
  let openPorts ← computeOpenPorts ports
  let portList ← portEntries openPorts
  let nseResults ← allScriptFindings openPorts
  pure { address := address, status := status, openPorts := portList,
         totalOpen := openPorts.length, vulns := nseResults }

/-- A summary-shaped value: either the extracted summary or the error
marker object of line 319 / line 245, with the `String(e)` message
abstracted (the captured exception text is runtime-dependent). -/
inductive SummaryOut where
  | errorMarker (details : String)
  | summary (s : ScanSummary)
deriving Repr

/-- `makeSummary`, lines 277–321: the `try` body with its own `catch`
returning the marker object, so the function itself never throws. -/
def makeSummary (parsed : JVal) : SummaryOut :=
  match makeSummaryCore parsed with
  | .ok s => .summary s
  | .error () => .errorMarker "TypeError"

/-- Lines 232–247: compute `parsed` and `summary` for one item. The
guard is `smartResult && !scanResult.error && outputFormat === 'xml' &&
typeof scanResult.output === 'string'`; a `Success` record always
carries a string `output` and a `Failure` record has no `output` field,
so the last conjunct coincides with the outcome being a success. The
`xml2js` parser is the oracle `parseXml`; when it throws, `parsed`
stays null and `summary` becomes the error-marker object of line 245. -/
def summaryStage (p : ItemParams) (parseXml : String → Except String JVal)
    (sr : ScanResult) : Option JVal × Option SummaryOut :=
  match sr.result with
  | .ok s =>
      if p.smartResult && (p.outputFormat == "xml") then
        match parseXml s.output with
        | .ok doc => (some doc, some (makeSummary doc))
        | .error e => (none, some (.errorMarker e))
      else (none, none)
  | .error _ => (none, none)

/-- The object pushed to `outputs` at lines 263–269: the spread of
`scanResult` with the `parsed` and `summary` keys added when non-null
(both are only ever non-null when `smartResult` holds). -/
structure Emitted where
  scan : ScanResult
  parsed : Option JVal
  summary : Option SummaryOut
deriving Repr

/-- The `historyObj` of lines 251–259, structurally: `summary` is the
always-present (possibly null) summary value; the `error` key is
present exactly when `scanResult.error` is truthy, and then holds the
failure payload; the `resiliency` key is present exactly when the scan
result carries one. -/
structure HistoryParts where
  timestamp : String
  target : String
  flags : String
  format : String
  summary : Option SummaryOut
  error : Option Failure
  resiliency : Option Resiliency
deriving Repr

/-- One iteration of the `for` loop of lines 137–270, without the
history write itself: the emitted object and, when `saveHistory` holds,
the history record content (`now` is the `new Date().toISOString()`
timestamp). -/
def processItem (p : ItemParams) (proc : String → Rat → ProcResult)
    (parseXml : String → Except String JVal) (now : String) :
    Emitted × Option HistoryParts :=
  let tr := processScan p proc
  let ps := summaryStage p parseXml tr.scanResult
  let em : Emitted := ⟨tr.scanResult, ps.1, ps.2⟩
  let hist :=
    if p.saveHistory then
      some { timestamp := now, target := p.target, flags := deriveFlags p,
             format := p.outputFormat, summary := ps.2,
             error := (match tr.scanResult.result with
                       | .error e => some e
                       | .ok _ => none),
             resiliency := tr.scanResult.resiliency }
    else none
  (em, hist)

/-- The batch loop of `execute` (lines 137–271). `sinkOk k` tells
whether the `k`-th `fs.appendFileSync` call (0-based, counted across
the whole batch) succeeds; the call sits in no `try`, so a throwing
append propagates out of `execute` (modelled by `.error ()`) and no
outputs are returned at all. -/
def executeGo (proc : String → Rat → ProcResult)
    (parseXml : String → Except String JVal) (now : String)
    (sinkOk : Nat → Bool) :
    List ItemParams → Nat → List Emitted → Except Unit (List Emitted)
  | [], _, acc => .ok acc.reverse
  | p :: rest, k, acc =>
      let pr := processItem p proc parseXml now
      match pr.2 with
      | some _ =>
          if sinkOk k then executeGo proc parseXml now sinkOk rest (k + 1) (pr.1 :: acc)
          else .error ()
      | none => executeGo proc parseXml now sinkOk rest k (pr.1 :: acc)

/-- The whole `execute` body over a batch of items. -/
def executeAll (items : List ItemParams) (proc : String → Rat → ProcResult)
    (parseXml : String → Except String JVal) (now : String)
    (sinkOk : Nat → Bool) : Except Unit (List Emitted) :=
  executeGo proc parseXml now sinkOk items 0 []

/-- An opening curly brace character. -/
def lcurly : Char := Char.ofNat 123

/-- A closing curly brace character. -/
def rcurly : Char := Char.ofNat 125

/-- A JSON value, the codomain of `JSON.stringify` as used for the
history record: the record's own fields are strings, its payloads
(summary, failure, resiliency) arbitrary JSON trees; `totalOpen` is the
one numeric field and it is a non-negative integer. -/
inductive Json where
  | null
  | bool (b : Bool)
  | num (n : Nat)
  | str (s : String)
  | arr (elems : List Json)
  | obj (fields : List (String × Json))

/-- Decimal digit character for a digit value below ten. -/
def digitChar : Nat → Char
  | 0 => '0' | 1 => '1' | 2 => '2' | 3 => '3' | 4 => '4'
  | 5 => '5' | 6 => '6' | 7 => '7' | 8 => '8' | _ => '9'

/-- Lower-case hexadecimal digit character for a value below sixteen. -/
def hexChar : Nat → Char
  | 0 => '0' | 1 => '1' | 2 => '2' | 3 => '3' | 4 => '4'
  | 5 => '5' | 6 => '6' | 7 => '7' | 8 => '8' | 9 => '9'
  | 10 => 'a' | 11 => 'b' | 12 => 'c' | 13 => 'd' | 14 => 'e' | _ => 'f'

/-- Decimal rendering of a natural number, most significant digit
first; the fuel argument only bounds the recursion (`n + 1` always
suffices since `n / 10 < n`). -/
def natDigitsAux : Nat → Nat → List Char
  | 0, _ => []
  | fuel + 1, n =>
      if n < 10 then [digitChar n]
      else natDigitsAux fuel (n / 10) ++ [digitChar (n % 10)]

/-- Decimal rendering of a natural number (`JSON.stringify` of a
non-negative integer). -/
def natDigits (n : Nat) : List Char :=
  natDigitsAux (n + 1) n

/-- The escape of one character inside a JSON string literal, as
`JSON.stringify` emits it: two-character escapes for the quote, the
backslash and the common control characters, `\u00xx` for the other
control characters, the character itself otherwise. -/
def escapeChar (c : Char) : List Char :=
  if c = '"' then ['\\', '"']
  else if c = '\\' then ['\\', '\\']
  else if c = '\n' then ['\\', 'n']
  else if c = '\r' then ['\\', 'r']
  else if c = '\t' then ['\\', 't']
  else if c = Char.ofNat 8 then ['\\', 'b']
  else if c = Char.ofNat 12 then ['\\', 'f']
  else if c.toNat < 32 then ['\\', 'u', '0', '0', hexChar (c.toNat / 16), hexChar (c.toNat % 16)]
  else [c]

/-- Escape of a whole character sequence. -/
def escapeList (cs : List Char) : List Char :=
  cs.flatMap escapeChar

/-- A JSON string literal: quote, escaped body, quote. -/
def renderString (s : String) : List Char :=
  '"' :: escapeList s.data ++ ['"']

mutual

/-- Canonical (`JSON.stringify`-shaped, no whitespace) rendering of a
JSON value. -/
def renderJson : Json → List Char
  | .str s => renderString s
  | .num n => natDigits n
  | .arr [] => ['[', ']']
  | .arr (x :: xs) => '[' :: (renderElems x xs ++ [']'])
  | .obj [] => [lcurly, rcurly]
  | .obj (m :: ms) => lcurly :: (renderMembers m ms ++ [rcurly])
  | .bool true => ("true" : String).data
  | .bool false => ("false" : String).data
  | .null => ("null" : String).data
termination_by j => sizeOf j

/-- Comma-separated rendering of a non-empty list of array elements. -/
def renderElems : Json → List Json → List Char
  | x, [] => renderJson x
  | x, y :: ys => renderJson x ++ ',' :: renderElems y ys
termination_by x xs => sizeOf x + sizeOf xs

/-- Comma-separated rendering of a non-empty list of object members. -/
def renderMembers : String × Json → List (String × Json) → List Char
  | (k, v), [] => renderString k ++ ':' :: renderJson v
  | (k, v), m :: ms => renderString k ++ ':' :: renderJson v ++ ',' :: renderMembers m ms
termination_by m ms => sizeOf m + sizeOf ms

end

mutual

/-- Fuel bound sufficient for the parser to reconstruct a value: one
unit per bracket level and per list element. -/
def jweight : Json → Nat
  | .null => 1
  | .bool _ => 1
  | .num _ => 1
  | .str _ => 1
  | .arr [] => 1
  | .arr (x :: xs) => 1 + weightElems x xs
  | .obj [] => 1
  | .obj (m :: ms) => 1 + weightMembers m ms
termination_by j => sizeOf j

/-- Fuel bound for a non-empty element list. -/
def weightElems : Json → List Json → Nat
  | x, [] => 1 + jweight x
  | x, y :: ys => 1 + max (jweight x) (weightElems y ys)
termination_by x xs => sizeOf x + sizeOf xs

/-- Fuel bound for a non-empty member list. -/
def weightMembers : String × Json → List (String × Json) → Nat
  | (_, v), [] => 1 + jweight v
  | (_, v), m :: ms => 1 + max (jweight v) (weightMembers m ms)
termination_by m ms => sizeOf m + sizeOf ms

end

/-- Inverse of `unescChar`-style two-character escapes. -/
def unescChar (c : Char) : Option Char :=
  if c = '"' then some '"'
  else if c = '\\' then some '\\'
  else if c = '/' then some '/'
  else if c = 'n' then some '\n'
  else if c = 'r' then some '\r'
  else if c = 't' then some '\t'
  else if c = 'b' then some (Char.ofNat 8)
  else if c = 'f' then some (Char.ofNat 12)
  else none

/-- Value of a (lower-case) hexadecimal digit character. -/
def hexVal (c : Char) : Option Nat :=
  if c.isDigit then some (c.toNat - 48)
  else if 'a' ≤ c && c ≤ 'f' then some (c.toNat - 87)
  else none

/-- Parser for the remainder of a JSON string literal (after the
opening quote): consumes up to the closing quote, undoing escapes. -/
def parseStr : List Char → Option (String × List Char)
  | [] => none
  | c :: rest =>
      if c = '"' then some ("", rest)
      else if c = '\\' then
        match rest with
        | [] => none
        | e :: rest1 =>
            if e = 'u' then
              match rest1 with
              | h1 :: h2 :: h3 :: h4 :: rest2 =>
                  match hexVal h1, hexVal h2, hexVal h3, hexVal h4 with
                  | some a, some b, some c2, some d =>
                      match parseStr rest2 with
                      | some (s, r) =>
                          some (⟨Char.ofNat (((a * 16 + b) * 16 + c2) * 16 + d) :: s.data⟩, r)
                      | none => none
                  | _, _, _, _ => none
              | _ => none
            else
              match unescChar e with
              | some u =>
                  match parseStr rest1 with
                  | some (s, r) => some (⟨u :: s.data⟩, r)
                  | none => none
              | none => none
      else
        match parseStr rest with
        | some (s, r) => some (⟨c :: s.data⟩, r)
        | none => none

/-- Longest digit prefix and the remainder. -/
def takeDigits : List Char → List Char × List Char
  | [] => ([], [])
  | c :: rest =>
      if c.isDigit then
        match takeDigits rest with
        | (ds, r) => (c :: ds, r)
      else ([], c :: rest)

/-- Numeric value of a digit sequence, most significant first. -/
def digitsToNat (ds : List Char) : Nat :=
  ds.foldl (fun a c => a * 10 + (c.toNat - 48)) 0

/-- Tail of a `null` literal after the leading `n`. -/
def parseNullTail : List Char → Option (Json × List Char)
  | 'u' :: 'l' :: 'l' :: r1 => some (.null, r1)
  | _ => none

/-- Tail of a `true` literal after the leading `t`. -/
def parseTrueTail : List Char → Option (Json × List Char)
  | 'r' :: 'u' :: 'e' :: r1 => some (.bool true, r1)
  | _ => none

/-- Tail of a `false` literal after the leading `f`. -/
def parseFalseTail : List Char → Option (Json × List Char)
  | 'a' :: 'l' :: 's' :: 'e' :: r1 => some (.bool false, r1)
  | _ => none

/-- Tail of a string literal after the opening quote. -/
def parseStrTail (r : List Char) : Option (Json × List Char) :=
  match parseStr r with
  | some (s, r1) => some (.str s, r1)
  | none => none

/-- A number starting at digit `c`. -/
def parseNumTail (c : Char) (r : List Char) : Option (Json × List Char) :=
  match takeDigits (c :: r) with
  | (ds, r1) => some (.num (digitsToNat ds), r1)

mutual

/-- Fuel-indexed JSON parser, defined to invert `renderJson`: returns
the parsed value and the unconsumed remainder. -/
def parseJson : Nat → List Char → Option (Json × List Char)
  | 0, _ => none
  | fuel + 1, l =>
      match l with
      | [] => none
      | c :: r =>
          if c = 'n' then parseNullTail r
          else if c = 't' then parseTrueTail r
          else if c = 'f' then parseFalseTail r
          else if c = '"' then parseStrTail r
          else if c = '[' then parseArrTail fuel r
          else if c = lcurly then parseObjTail fuel r
          else if c.isDigit then parseNumTail c r
          else none
termination_by fuel _ => (fuel, 2)

/-- Tail of an array after the opening bracket. -/
def parseArrTail : Nat → List Char → Option (Json × List Char)
  | _, [] => none
  | fuel, c1 :: r1 =>
      if c1 = ']' then some (.arr [], r1)
      else
        match parseElems fuel (c1 :: r1) with
        | some (js, r2) => some (.arr js, r2)
        | none => none
termination_by fuel _ => (fuel, 1)

/-- Tail of an object after the opening brace. -/
def parseObjTail : Nat → List Char → Option (Json × List Char)
  | _, [] => none
  | fuel, c1 :: r1 =>
      if c1 = rcurly then some (.obj [], r1)
      else
        match parseMembers fuel (c1 :: r1) with
        | some (ms, r2) => some (.obj ms, r2)
        | none => none
termination_by fuel _ => (fuel, 1)

/-- Parser for a non-empty comma-separated element list up to and
including the closing square bracket. -/
def parseElems : Nat → List Char → Option (List Json × List Char)
  | 0, _ => none
  | fuel + 1, l =>
      match parseJson fuel l with
      | some (j, c :: r) =>
          if c = ',' then
            match parseElems fuel r with
            | some (js, r1) => some (j :: js, r1)
            | none => none
          else if c = ']' then some ([j], r)
          else none
      | _ => none
termination_by fuel _ => (fuel, 0)

/-- Parser for a non-empty comma-separated member list up to and
including the closing curly brace. -/
def parseMembers : Nat → List Char → Option (List (String × Json) × List Char)
  | 0, _ => none
  | fuel + 1, l =>
      match l with
      | [] => none
      | c :: r =>
          if c = '"' then
            match parseStr r with
            | some (k, c1 :: r1) =>
                if c1 = ':' then
                  match parseJson fuel r1 with
                  | some (v, c2 :: r2) =>
                      if c2 = ',' then
                        match parseMembers fuel r2 with
                        | some (ms, r3) => some ((k, v) :: ms, r3)
                        | none => none
                      else if c2 = rcurly then some ([(k, v)], r2)
                      else none
                  | _ => none
                else none
            | _ => none
          else none
termination_by fuel _ => (fuel, 0)

end

/-- Lookup of a key among a parsed object's members (first match). -/
def lookupMember : List (String × Json) → String → Option Json
  | [], _ => none
  | (k, v) :: ms, key => if k = key then some v else lookupMember ms key

/-- Field read on a parsed JSON value. -/
def jsonLookup : Json → String → Option Json
  | .obj fs, key => lookupMember fs key
  | _, _ => none

/-- The `historyObj` of lines 251–259 as the JSON value that
`JSON.stringify` receives: `timestamp`, `target`, `flags` and `format`
are the item's strings, `summary` is the (possibly null) summary
payload, and the `error` and `resiliency` keys are spread in exactly
when present. -/
def historyJson (ts tg fl fm : String) (summary : Json)
    (error resiliency : Option Json) : Json :=
  .obj ([("timestamp", .str ts), ("target", .str tg), ("flags", .str fl),
         ("format", .str fm), ("summary", summary)]
    ++ (match error with | some e => [("error", e)] | none => [])
    ++ (match resiliency with | some r => [("resiliency", r)] | none => []))

/-- Line 260: the appended history line, `JSON.stringify(historyObj) + '\n'`. -/
def historyLine (ts tg fl fm : String) (summary : Json)
    (error resiliency : Option Json) : List Char :=
  renderJson (historyJson ts tg fl fm summary error resiliency) ++ ['\n']

/-- Whether a character list does not begin with a decimal digit (used
to delimit greedy number parsing). -/
def notDigitStart (l : List Char) : Prop :=
  ∀ c t, l = c :: t → c.isDigit = false

theorem notDigitStart_nil : notDigitStart [] := by
  intro c t h
  cases h

theorem notDigitStart_cons (c : Char) (t : List Char) (h : c.isDigit = false) :
    notDigitStart (c :: t) := by
  intro c' t' h'
  cases h'
  exact h

theorem digitChar_spec (d : Nat) (h : d < 10) :
    (digitChar d).isDigit = true ∧ (digitChar d).toNat = 48 + d := by
  interval_cases d <;> exact ⟨rfl, rfl⟩

theorem digitsToNat_append_one (ds : List Char) (c : Char) :
    digitsToNat (ds ++ [c]) = digitsToNat ds * 10 + (c.toNat - 48) := by
  simp [digitsToNat, List.foldl_append]

theorem natDigitsAux_spec : ∀ (n fuel : Nat), n < fuel →
    (natDigitsAux fuel n ≠ [] ∧ (∀ c ∈ natDigitsAux fuel n, c.isDigit = true) ∧
      digitsToNat (natDigitsAux fuel n) = n) := by
  intro n
  induction n using Nat.strong_induction_on with
  | _ n ih =>
      intro fuel hf
      cases fuel with
      | zero => omega
      | succ f =>
          by_cases h10 : n < 10
          · obtain ⟨hd, ht⟩ := digitChar_spec n h10
            refine ⟨by simp [natDigitsAux, h10], ?_, ?_⟩
            · intro c hc
              simp [natDigitsAux, h10] at hc
              rw [hc]
              exact hd
            · simp [natDigitsAux, h10, digitsToNat, ht]
          · have hlt : n / 10 < n := Nat.div_lt_self (by omega) (by omega)
            have hf' : n / 10 < f := by omega
            obtain ⟨h1, h2, h3⟩ := ih (n / 10) hlt f hf'
            obtain ⟨hd, ht⟩ := digitChar_spec (n % 10) (Nat.mod_lt _ (by omega))
            refine ⟨by simp [natDigitsAux, h10], ?_, ?_⟩
            · intro c hc
              simp [natDigitsAux, h10] at hc
              rcases hc with hc | hc
              · exact h2 c hc
              · rw [hc]
                exact hd
            · simp [natDigitsAux, h10, digitsToNat_append_one, h3, ht]
              omega

theorem natDigits_spec (n : Nat) :
    natDigits n ≠ [] ∧ (∀ c ∈ natDigits n, c.isDigit = true) ∧
      digitsToNat (natDigits n) = n :=
  natDigitsAux_spec n (n + 1) (Nat.lt_succ_self n)

theorem takeDigits_append (ds rest : List Char)
    (hd : ∀ c ∈ ds, c.isDigit = true) (hr : notDigitStart rest) :
    takeDigits (ds ++ rest) = (ds, rest) := by
  induction ds with
  | nil =>
      cases rest with
      | nil => rfl
      | cons c t => simp [takeDigits, hr c t rfl]
  | cons c ds' ih =>
      have hc : c.isDigit = true := hd c (by simp)
      have ih' := ih (fun c' hc' => hd c' (by simp [hc']))
      simp [takeDigits, hc, ih']

theorem hexVal_hexChar (n : Nat) (h : n < 16) : hexVal (hexChar n) = some n := by
  interval_cases n <;> rfl

theorem string_mk_data (s : String) : String.mk s.data = s := rfl

theorem escapeList_cons (c : Char) (cs : List Char) :
    escapeList (c :: cs) = escapeChar c ++ escapeList cs := by
  simp [escapeList]

theorem parseStr_quote (rest : List Char) : parseStr ('"' :: rest) = some ("", rest) := by
  rw [parseStr.eq_def]
  simp

theorem parseStr_escStep (e u : Char) (l : List Char) (hne : e ≠ 'u')
    (hu : unescChar e = some u) :
    parseStr ('\\' :: e :: l) =
      (match parseStr l with
       | some (s, r) => some (⟨u :: s.data⟩, r)
       | none => none) := by
  rw [parseStr.eq_def]
  simp [hne, hu]

theorem parseStr_unicode (h3 h4 : Char) (a b : Nat) (l : List Char)
    (h3v : hexVal h3 = some a) (h4v : hexVal h4 = some b) :
    parseStr ('\\' :: 'u' :: '0' :: '0' :: h3 :: h4 :: l) =
      (match parseStr l with
       | some (s, r) =>
           some (⟨Char.ofNat (((0 * 16 + 0) * 16 + a) * 16 + b) :: s.data⟩, r)
       | none => none) := by
  rw [parseStr.eq_def]
  have h0 : hexVal '0' = some 0 := rfl
  simp [h0, h3v, h4v]

theorem parseStr_plain (c : Char) (l : List Char) (h1 : c ≠ '"') (h2 : c ≠ '\\') :
    parseStr (c :: l) =
      (match parseStr l with
       | some (s, r) => some (⟨c :: s.data⟩, r)
       | none => none) := by
  rw [parseStr.eq_def]
  simp [h1, h2]

theorem parseStr_escape : ∀ (cs : List Char) (rest : List Char),
    parseStr (escapeList cs ++ '"' :: rest) = some (⟨cs⟩, rest) := by
  intro cs
  induction cs with
  | nil =>
      intro rest
      show parseStr ('"' :: rest) = some (⟨[]⟩, rest)
      exact parseStr_quote rest
  | cons c cs ih =>
      intro rest
      rw [escapeList_cons, List.append_assoc]
      by_cases h1 : c = '"'
      · subst h1
        have he : escapeChar '"' = ['\\', '"'] := rfl
        rw [he, List.cons_append, List.cons_append, List.nil_append,
          parseStr_escStep '"' '"' _ (by decide) rfl, ih]
      · by_cases h2 : c = '\\'
        · subst h2
          have he : escapeChar '\\' = ['\\', '\\'] := rfl
          rw [he, List.cons_append, List.cons_append, List.nil_append,
            parseStr_escStep '\\' '\\' _ (by decide) rfl, ih]
        · by_cases h3 : c = '\n'
          · subst h3
            have he : escapeChar '\n' = ['\\', 'n'] := rfl
            rw [he, List.cons_append, List.cons_append, List.nil_append,
              parseStr_escStep 'n' '\n' _ (by decide) rfl, ih]
          · by_cases h4 : c = '\r'
            · subst h4
              have he : escapeChar '\r' = ['\\', 'r'] := rfl
              rw [he, List.cons_append, List.cons_append, List.nil_append,
                parseStr_escStep 'r' '\r' _ (by decide) rfl, ih]
            · by_cases h5 : c = '\t'
              · subst h5
                have he : escapeChar '\t' = ['\\', 't'] := rfl
                rw [he, List.cons_append, List.cons_append, List.nil_append,
                  parseStr_escStep 't' '\t' _ (by decide) rfl, ih]
              · by_cases h6 : c = Char.ofNat 8
                · subst h6
                  have he : escapeChar (Char.ofNat 8) = ['\\', 'b'] := rfl
                  rw [he, List.cons_append, List.cons_append, List.nil_append,
                    parseStr_escStep 'b' (Char.ofNat 8) _ (by decide) rfl, ih]
                · by_cases h7 : c = Char.ofNat 12
                  · subst h7
                    have he : escapeChar (Char.ofNat 12) = ['\\', 'f'] := rfl
                    rw [he, List.cons_append, List.cons_append, List.nil_append,
                      parseStr_escStep 'f' (Char.ofNat 12) _ (by decide) rfl, ih]
                  · by_cases h8 : c.toNat < 32
                    · have hesc : escapeChar c =
                          ['\\', 'u', '0', '0', hexChar (c.toNat / 16),
                            hexChar (c.toNat % 16)] := by
                        simp [escapeChar, h1, h2, h3, h4, h5, h6, h7, h8]
                      have hhi := hexVal_hexChar (c.toNat / 16) (by omega)
                      have hlo := hexVal_hexChar (c.toNat % 16) (by omega)
                      have harith : ((0 * 16 + 0) * 16 + c.toNat / 16) * 16 +
                          c.toNat % 16 = c.toNat := by omega
                      rw [hesc]
                      simp only [List.cons_append, List.nil_append]
                      rw [parseStr_unicode _ _ _ _ _ hhi hlo, ih, harith,
                        Char.ofNat_toNat]
                    · have hesc : escapeChar c = [c] := by
                        simp [escapeChar, h1, h2, h3, h4, h5, h6, h7, h8]
                      rw [hesc]
                      simp only [List.cons_append, List.nil_append]
                      rw [parseStr_plain c _ h1 h2, ih]

theorem isPrefixOf_append_self (pat suf : List Char) :
    List.isPrefixOf pat (pat ++ suf) = true := by
  simp only [List.isPrefixOf_iff_prefix]
  exact List.prefix_append pat suf

theorem listIncludes_of_isPrefixOf (pat l : List Char)
    (h : List.isPrefixOf pat l = true) : listIncludes pat l = true := by
  cases l with
  | nil =>
      cases pat with
      | nil => rfl
      | cons c cs => simp [List.isPrefixOf_iff_prefix] at h
  | cons c rest =>
      simp only [listIncludes]
      rw [h]
      rfl

theorem listIncludes_parts (pat pre suf : List Char) :
    listIncludes pat (pre ++ pat ++ suf) = true := by
  induction pre with
  | nil =>
      exact listIncludes_of_isPrefixOf _ _ (isPrefixOf_append_self pat suf)
  | cons c cs ih =>
      simp only [List.cons_append, listIncludes, List.append_eq]
      rw [ih]
      simp

/-- The rebuilt retry command of line 207 contains the `-Pn` override
as a substring, whatever the other parameters are. -/
theorem parseJson_head_n (f : Nat) (l : List Char) :
    parseJson (f + 1) ('n' :: l) = parseNullTail l := by
  rw [parseJson.eq_def]
  simp

theorem parseJson_head_t (f : Nat) (l : List Char) :
    parseJson (f + 1) ('t' :: l) = parseTrueTail l := by
  rw [parseJson.eq_def]
  simp

theorem parseJson_head_f (f : Nat) (l : List Char) :
    parseJson (f + 1) ('f' :: l) = parseFalseTail l := by
  rw [parseJson.eq_def]
  simp

theorem parseJson_head_quote (f : Nat) (l : List Char) :
    parseJson (f + 1) ('"' :: l) = parseStrTail l := by
  rw [parseJson.eq_def]
  simp

theorem parseJson_head_lbrack (f : Nat) (l : List Char) :
    parseJson (f + 1) ('[' :: l) = parseArrTail f l := by
  rw [parseJson.eq_def]
  simp

theorem parseJson_head_lcurly (f : Nat) (l : List Char) :
    parseJson (f + 1) (lcurly :: l) = parseObjTail f l := by
  rw [parseJson.eq_def]
  simp [(by decide : lcurly ≠ 'n'), (by decide : lcurly ≠ 't'),
    (by decide : lcurly ≠ 'f'), (by decide : lcurly ≠ '"'),
    (by decide : lcurly ≠ '[')]

theorem parseJson_head_digit (f : Nat) (c : Char) (l : List Char)
    (h : c.isDigit = true) :
    parseJson (f + 1) (c :: l) = parseNumTail c l := by
  have h1 : c ≠ 'n' := fun he => absurd (he ▸ h) (by decide)
  have h2 : c ≠ 't' := fun he => absurd (he ▸ h) (by decide)
  have h3 : c ≠ 'f' := fun he => absurd (he ▸ h) (by decide)
  have h4 : c ≠ '"' := fun he => absurd (he ▸ h) (by decide)
  have h5 : c ≠ '[' := fun he => absurd (he ▸ h) (by decide)
  have h6 : c ≠ lcurly := fun he => absurd (he ▸ h) (by decide)
  rw [parseJson.eq_def]
  simp [h, h1, h2, h3, h4, h5, h6]

theorem parseElems_succ (f : Nat) (l : List Char) :
    parseElems (f + 1) l =
      (match parseJson f l with
       | some (j, c :: r) =>
           if c = ',' then
             match parseElems f r with
             | some (js, r1) => some (j :: js, r1)
             | none => none
           else if c = ']' then some ([j], r)
           else none
       | _ => none) := by
  rw [parseElems.eq_def]

theorem parseMembers_succ_quote (f : Nat) (l : List Char) :
    parseMembers (f + 1) ('"' :: l) =
      (match parseStr l with
       | some (k, c1 :: r1) =>
           if c1 = ':' then
             match parseJson f r1 with
             | some (v, c2 :: r2) =>
                 if c2 = ',' then
                   match parseMembers f r2 with
                   | some (ms, r3) => some ((k, v) :: ms, r3)
                   | none => none
                 else if c2 = rcurly then some ([(k, v)], r2)
                 else none
             | _ => none
           else none
       | _ => none) := by
  rw [parseMembers.eq_def]
  simp

theorem parseArrTail_rbrack (f : Nat) (rest : List Char) :
    parseArrTail f (']' :: rest) = some (.arr [], rest) := by
  rw [parseArrTail.eq_def]
  simp

theorem parseArrTail_not_rbrack (f : Nat) (c1 : Char) (r1 : List Char) (h : c1 ≠ ']') :
    parseArrTail f (c1 :: r1) =
      (match parseElems f (c1 :: r1) with
       | some (js, r2) => some (.arr js, r2)
       | none => none) := by
  rw [parseArrTail.eq_def]
  simp [h]

theorem parseObjTail_rcurly (f : Nat) (rest : List Char) :
    parseObjTail f (rcurly :: rest) = some (.obj [], rest) := by
  rw [parseObjTail.eq_def]
  simp

theorem parseObjTail_not_rcurly (f : Nat) (c1 : Char) (r1 : List Char) (h : c1 ≠ rcurly) :
    parseObjTail f (c1 :: r1) =
      (match parseMembers f (c1 :: r1) with
       | some (ms, r2) => some (.obj ms, r2)
       | none => none) := by
  rw [parseObjTail.eq_def]
  simp [h]

theorem jweight_pos (j : Json) : 1 ≤ jweight j := by
  cases j with
  | null => simp [jweight.eq_1]
  | bool b => simp [jweight.eq_2]
  | num n => simp [jweight.eq_3]
  | str s => simp [jweight.eq_4]
  | arr es =>
      cases es with
      | nil => simp [jweight.eq_5]
      | cons x xs => rw [jweight.eq_6]; omega
  | obj fs =>
      cases fs with
      | nil => simp [jweight.eq_7]
      | cons m ms => rw [jweight.eq_8]; omega

theorem weightElems_pos (x : Json) (xs : List Json) : 1 ≤ weightElems x xs := by
  cases xs with
  | nil => rw [weightElems.eq_1]; omega
  | cons y ys => rw [weightElems.eq_2]; omega

theorem weightMembers_pos (m : String × Json) (ms : List (String × Json)) :
    1 ≤ weightMembers m ms := by
  obtain ⟨k, v⟩ := m
  cases ms with
  | nil => rw [weightMembers.eq_1]; omega
  | cons m' ms' => rw [weightMembers.eq_2]; omega

theorem parseElems_of_comma (f : Nat) (l r : List Char) (j : Json)
    (h : parseJson f l = some (j, ',' :: r)) :
    parseElems (f + 1) l =
      (match parseElems f r with
       | some (js, r1) => some (j :: js, r1)
       | none => none) := by
  rw [parseElems_succ, h]
  rfl

theorem parseElems_of_rbrack (f : Nat) (l r : List Char) (j : Json)
    (h : parseJson f l = some (j, ']' :: r)) :
    parseElems (f + 1) l = some ([j], r) := by
  rw [parseElems_succ, h]
  rfl

theorem parseMembers_of_kv (f : Nat) (k : String) (v : Json)
    (body l r : List Char)
    (hstr : parseStr body = some (k, ':' :: l))
    (hv : parseJson f l = some (v, ',' :: r)) :
    parseMembers (f + 1) ('"' :: body) =
      (match parseMembers f r with
       | some (ms, r3) => some ((k, v) :: ms, r3)
       | none => none) := by
  rw [parseMembers_succ_quote, hstr]
  show (match parseJson f l with
        | some (v', c2 :: r2) =>
            if c2 = ',' then
              match parseMembers f r2 with
              | some (ms, r3) => some ((k, v') :: ms, r3)
              | none => none
            else if c2 = rcurly then some ([(k, v')], r2)
            else none
        | _ => none) =
      (match parseMembers f r with
       | some (ms, r3) => some ((k, v) :: ms, r3)
       | none => none)
  rw [hv]
  rfl

theorem parseMembers_of_kv_end (f : Nat) (k : String) (v : Json)
    (body l r : List Char)
    (hstr : parseStr body = some (k, ':' :: l))
    (hv : parseJson f l = some (v, rcurly :: r)) :
    parseMembers (f + 1) ('"' :: body) = some ([(k, v)], r) := by
  rw [parseMembers_succ_quote, hstr]
  show (match parseJson f l with
        | some (v', c2 :: r2) =>
            if c2 = ',' then
              match parseMembers f r2 with
              | some (ms, r3) => some ((k, v') :: ms, r3)
              | none => none
            else if c2 = rcurly then some ([(k, v')], r2)
            else none
        | _ => none) = some ([(k, v)], r)
  rw [hv]
  rfl

theorem renderJson_head (j : Json) :
    ∃ c t, renderJson j = c :: t ∧ c ≠ ']' := by
  cases j with
  | null => exact ⟨'n', _, renderJson.eq_9, by decide⟩
  | bool b =>
      cases b with
      | true => exact ⟨'t', _, renderJson.eq_7, by decide⟩
      | false => exact ⟨'f', _, renderJson.eq_8, by decide⟩
  | num n =>
      obtain ⟨hne, hdig, _⟩ := natDigits_spec n
      obtain ⟨c, t, hct⟩ := List.exists_cons_of_ne_nil hne
      have hc : c.isDigit = true := hdig c (by rw [hct]; simp)
      refine ⟨c, t, by rw [renderJson.eq_2, hct], ?_⟩
      intro he
      exact absurd (he ▸ hc) (by decide)
  | str s =>
      refine ⟨'"', escapeList s.data ++ ['"'], ?_, by decide⟩
      rw [renderJson.eq_1]
      rfl
  | arr es =>
      cases es with
      | nil => exact ⟨'[', _, renderJson.eq_3, by decide⟩
      | cons x xs => exact ⟨'[', _, renderJson.eq_4 x xs, by decide⟩
  | obj fs =>
      cases fs with
      | nil => exact ⟨lcurly, _, renderJson.eq_5, by decide⟩
      | cons m ms => exact ⟨lcurly, _, renderJson.eq_6 m ms, by decide⟩

theorem renderElems_head (x : Json) (xs : List Json) :
    ∃ c t, renderElems x xs = c :: t ∧ c ≠ ']' := by
  obtain ⟨c, t, hct, hne⟩ := renderJson_head x
  cases xs with
  | nil => exact ⟨c, t, by rw [renderElems.eq_1, hct], hne⟩
  | cons y ys =>
      exact ⟨c, t ++ ',' :: renderElems y ys,
        by rw [renderElems.eq_2, hct]; rfl, hne⟩

theorem renderMembers_head (m : String × Json) (ms : List (String × Json)) :
    ∃ t, renderMembers m ms = '"' :: t := by
  obtain ⟨k, v⟩ := m
  cases ms with
  | nil =>
      refine ⟨(escapeList k.data ++ ['"']) ++ ':' :: renderJson v, ?_⟩
      rw [renderMembers.eq_1]
      rfl
  | cons m' ms' =>
      refine ⟨(escapeList k.data ++ ['"']) ++
        ':' :: renderJson v ++ ',' :: renderMembers m' ms', ?_⟩
      rw [renderMembers.eq_2]
      rfl

theorem parse_render : ∀ fuel : Nat,
    (∀ j rest, jweight j ≤ fuel → notDigitStart rest →
      parseJson fuel (renderJson j ++ rest) = some (j, rest)) ∧
    (∀ x xs rest, weightElems x xs ≤ fuel →
      parseElems fuel (renderElems x xs ++ ']' :: rest) = some (x :: xs, rest)) ∧
    (∀ m ms rest, weightMembers m ms ≤ fuel →
      parseMembers fuel (renderMembers m ms ++ rcurly :: rest) = some (m :: ms, rest)) := by
  intro fuel
  induction fuel with
  | zero =>
      refine ⟨?_, ?_, ?_⟩
      · intro j rest hw _
        have := jweight_pos j
        omega
      · intro x xs rest hw
        have := weightElems_pos x xs
        omega
      · intro m ms rest hw
        have := weightMembers_pos m ms
        omega
  | succ f ih =>
      obtain ⟨ih1, ih2, ih3⟩ := ih
      refine ⟨?_, ?_, ?_⟩
      · intro j rest hw hnd
        cases j with
        | null =>
            rw [renderJson.eq_9,
              show ("null" : String).data ++ rest = 'n' :: 'u' :: 'l' :: 'l' :: rest
                from rfl,
              parseJson_head_n]
            rfl
        | bool b =>
            cases b with
            | true =>
                rw [renderJson.eq_7,
                  show ("true" : String).data ++ rest = 't' :: 'r' :: 'u' :: 'e' :: rest
                    from rfl,
                  parseJson_head_t]
                rfl
            | false =>
                rw [renderJson.eq_8,
                  show ("false" : String).data ++ rest =
                    'f' :: 'a' :: 'l' :: 's' :: 'e' :: rest from rfl,
                  parseJson_head_f]
                rfl
        | num n =>
            rw [renderJson.eq_2]
            obtain ⟨hne, hdig, hval⟩ := natDigits_spec n
            obtain ⟨c, t, hct⟩ := List.exists_cons_of_ne_nil hne
            have hc : c.isDigit = true := hdig c (by rw [hct]; simp)
            rw [hct]
            simp only [List.cons_append]
            rw [parseJson_head_digit f c _ hc]
            have htd : takeDigits (c :: (t ++ rest)) = (c :: t, rest) := by
              rw [show c :: (t ++ rest) = (c :: t) ++ rest from rfl]
              exact takeDigits_append (c :: t) rest (by rw [← hct]; exact hdig) hnd
            simp only [parseNumTail, htd]
            rw [← hct, hval]
        | str s =>
            rw [renderJson.eq_1]
            simp only [renderString, List.cons_append, List.append_assoc,
              List.nil_append]
            rw [parseJson_head_quote]
            simp only [parseStrTail]
            rw [parseStr_escape]
        | arr es =>
            cases es with
            | nil =>
                rw [renderJson.eq_3]
                simp only [List.cons_append, List.nil_append]
                rw [parseJson_head_lbrack, parseArrTail_rbrack]
            | cons x xs =>
                rw [renderJson.eq_4]
                simp only [List.cons_append, List.append_assoc, List.nil_append]
                rw [parseJson_head_lbrack]
                obtain ⟨c0, t0, hct, hne0⟩ := renderElems_head x xs
                have hshape : renderElems x xs ++ ']' :: rest =
                    c0 :: (t0 ++ ']' :: rest) := by
                  rw [hct]
                  rfl
                rw [hshape, parseArrTail_not_rbrack f c0 _ hne0, ← hshape]
                have hwe : weightElems x xs ≤ f := by
                  rw [jweight.eq_6] at hw
                  omega
                rw [ih2 x xs rest hwe]
        | obj fs =>
            cases fs with
            | nil =>
                rw [renderJson.eq_5]
                simp only [List.cons_append, List.nil_append]
                rw [parseJson_head_lcurly, parseObjTail_rcurly]
            | cons m ms =>
                rw [renderJson.eq_6]
                simp only [List.cons_append, List.append_assoc, List.nil_append]
                rw [parseJson_head_lcurly]
                obtain ⟨t0, hct⟩ := renderMembers_head m ms
                have hshape : renderMembers m ms ++ rcurly :: rest =
                    '"' :: (t0 ++ rcurly :: rest) := by
                  rw [hct]
                  rfl
                rw [hshape, parseObjTail_not_rcurly f _ _ (by decide), ← hshape]
                have hwm : weightMembers m ms ≤ f := by
                  rw [jweight.eq_8] at hw
                  omega
                rw [ih3 m ms rest hwm]
      · intro x xs rest hw
        cases xs with
        | nil =>
            rw [renderElems.eq_1]
            have hj : jweight x ≤ f := by
              rw [weightElems.eq_1] at hw
              omega
            exact parseElems_of_rbrack f _ rest x
              (ih1 x (']' :: rest) hj (notDigitStart_cons _ _ (by decide)))
        | cons y ys =>
            rw [renderElems.eq_2, List.append_assoc]
            simp only [List.cons_append]
            have h1 : jweight x ≤ f := by
              rw [weightElems.eq_2] at hw
              have := le_max_left (jweight x) (weightElems y ys)
              omega
            have h2 : weightElems y ys ≤ f := by
              rw [weightElems.eq_2] at hw
              have := le_max_right (jweight x) (weightElems y ys)
              omega
            rw [parseElems_of_comma f _ _ x
              (ih1 x _ h1 (notDigitStart_cons _ _ (by decide)))]
            rw [ih2 y ys rest h2]
      · intro m ms rest hw
        obtain ⟨k, v⟩ := m
        cases ms with
        | nil =>
            rw [renderMembers.eq_1, List.append_assoc]
            simp only [renderString, List.cons_append, List.append_assoc,
              List.nil_append]
            have hv : jweight v ≤ f := by
              rw [weightMembers.eq_1] at hw
              omega
            rw [parseMembers_of_kv_end f _ v _ _ rest (parseStr_escape k.data _)
              (ih1 v _ hv (notDigitStart_cons _ _ (by decide)))]
        | cons m' ms' =>
            rw [renderMembers.eq_2, List.append_assoc]
            simp only [renderString, List.cons_append, List.append_assoc,
              List.nil_append]
            have hv : jweight v ≤ f := by
              rw [weightMembers.eq_2] at hw
              have := le_max_left (jweight v) (weightMembers m' ms')
              omega
            have hm : weightMembers m' ms' ≤ f := by
              rw [weightMembers.eq_2] at hw
              have := le_max_right (jweight v) (weightMembers m' ms')
              omega
            rw [parseMembers_of_kv f _ v _ _ _ (parseStr_escape k.data _)
              (ih1 v _ hv (notDigitStart_cons _ _ (by decide)))]
            rw [ih3 m' ms' rest hm]

theorem retryCmd_includes_pn (np flags fmt tgt : String) :
    jsIncludes (buildCmd np (flags ++ " -Pn") fmt tgt) "-Pn" = true := by
  have hsp : (" -Pn" : String).data = (" " : String).data ++ ("-Pn" : String).data := by decide
  have h : (buildCmd np (flags ++ " -Pn") fmt tgt).data =
      (("\"" : String).data ++ np.data ++ ("\" " : String).data ++ flags.data
          ++ (" " : String).data)
        ++ ("-Pn" : String).data
        ++ ((" " : String).data ++ fmt.data ++ (" \"" : String).data ++ tgt.data
          ++ ("\"" : String).data) := by
    simp [buildCmd, String.data_append, hsp]
  rw [jsIncludes, h]
  exact listIncludes_parts _ _ _

/-- The truthiness guard on `err.details` (line 197) is redundant: the
empty string matches none of the three patterns, so the classified
condition is equivalent to the bare pattern match. -/
theorem isHostUnreachable_iff_pattern (d : String) :
    isHostUnreachable d = true ↔ unreachablePattern d = true := by
  constructor
  · intro h
    exact (Bool.and_eq_true _ _ |>.mp h).2
  · intro h
    by_cases hd : d = ""
    · subst hd
      exact absurd h (by decide)
    · simp [isHostUnreachable, h, hd]

/-- C3. The flag derivation is a total deterministic function of the
scan mode: quick (`fast`) yields `-T4 -F`, full yields
`-T4 -p1-65535`, version detection yields `-sV`, OS detection yields
`-O`, custom mode passes the raw flag string through unchanged
(including empty), and NSE script mode yields `--script` plus the
comma-joined script names when the list is non-empty and no flag at
all when it is empty. -/
theorem flag_derivation_total (tg : String) (sm sv : Bool) (fm : String)
    (tv : Option Rat) (np cf : String) (ns : List String) :
    deriveFlags ⟨tg, "fast", sm, sv, fm, tv, np, cf, ns⟩ = "-T4 -F" ∧
    deriveFlags ⟨tg, "full", sm, sv, fm, tv, np, cf, ns⟩ = "-T4 -p1-65535" ∧
    deriveFlags ⟨tg, "version", sm, sv, fm, tv, np, cf, ns⟩ = "-sV" ∧
    deriveFlags ⟨tg, "os", sm, sv, fm, tv, np, cf, ns⟩ = "-O" ∧
    deriveFlags ⟨tg, "custom", sm, sv, fm, tv, np, cf, ns⟩ = cf ∧
    deriveFlags ⟨tg, "nse", sm, sv, fm, tv, np, cf, []⟩ = "" ∧
    (∀ s ss, deriveFlags ⟨tg, "nse", sm, sv, fm, tv, np, cf, s :: ss⟩ =
      "--script " ++ String.intercalate "," (s :: ss)) :=
  ⟨rfl, rfl, rfl, rfl, rfl, rfl, fun _ _ => rfl⟩

/-- C7. Append/parse round trip for history records: the serialized
history line (one JSON object plus a trailing newline) parses back to
exactly the record value, and the parsed object's `timestamp`,
`target`, `flags` and `format` keys hold the original strings, its
`summary` key the original (possibly null) summary payload, and its
`error` and `resiliency` keys are present with the original payloads
exactly when the record carried them — the serialization is lossless
for every field the record captures. -/
theorem history_roundtrip (ts tg fl fm : String) (summary : Json)
    (error resiliency : Option Json) :
    parseJson (jweight (historyJson ts tg fl fm summary error resiliency))
        (historyLine ts tg fl fm summary error resiliency) =
      some (historyJson ts tg fl fm summary error resiliency, ['\n']) ∧
    jsonLookup (historyJson ts tg fl fm summary error resiliency) "timestamp" =
      some (.str ts) ∧
    jsonLookup (historyJson ts tg fl fm summary error resiliency) "target" =
      some (.str tg) ∧
    jsonLookup (historyJson ts tg fl fm summary error resiliency) "flags" =
      some (.str fl) ∧
    jsonLookup (historyJson ts tg fl fm summary error resiliency) "format" =
      some (.str fm) ∧
    jsonLookup (historyJson ts tg fl fm summary error resiliency) "summary" =
      some summary ∧
    jsonLookup (historyJson ts tg fl fm summary error resiliency) "error" =
      error ∧
    jsonLookup (historyJson ts tg fl fm summary error resiliency) "resiliency" =
      resiliency := by
  constructor
  · show parseJson _ (renderJson (historyJson ts tg fl fm summary error resiliency)
        ++ ['\n']) = _
    exact (parse_render _).1 _ ['\n'] le_rfl (notDigitStart_cons _ _ (by decide))
  · cases error <;> cases resiliency <;>
      exact ⟨rfl, rfl, rfl, rfl, rfl, rfl, rfl⟩

/-- Concrete item used by the closed witness theorems: a quick scan of
host `h`, plain text output, history on, smart result off. -/
def pWit : ItemParams :=
  ⟨"h", "fast", false, true, "text", some 5, "nmap", "", []⟩

/-- Oracle that fails the first command with a `0 hosts up` detail and
succeeds on any other command. -/
def procWit : String → Rat → ProcResult :=
  fun c _ =>
    if c = "\"nmap\" -T4 -F  \"h\"" then .failed "m" "" "Note: 0 hosts up"
    else .ok "out"

/-- Oracle whose every run fails with a generic detail. -/
def procRefused : String → Rat → ProcResult :=
  fun _ _ => .failed "m" "" "connection refused"

/-- The failure payload `procWit` produces on the first command. -/
def errWit : Failure :=
  ⟨"Nmap execution failed", "Note: 0 hosts up", "\"nmap\" -T4 -F  \"h\"", "",
    "Note: 0 hosts up"⟩

/-- The success payload `procWit` produces on the retried command. -/
def s2Wit : Success :=
  ⟨"h", "\"nmap\" -T4 -F -Pn  \"h\"", "out", "text", "-T4 -F"⟩

/-- XML-parser oracle used where parsing is irrelevant. -/
def parseWit : String → Except String JVal :=
  fun _ => .error "unused"

/-- C1. When the first attempt fails, a retry (a second `exec`
invocation) occurs if and only if the failure's detail text matches one
of the host-unreachable patterns (`0 hosts up`, `Failed to resolve`, or
the case-insensitive `host.*down` regex) and the current flag string
does not already contain `-Pn`; when no retry occurs the item's final
outcome is the original failure with no resiliency note. -/
theorem retry_iff_unreachable (p : ItemParams) (proc : String → Rat → ProcResult)
    (err : Failure)
    (h : runNmap p.target p.outputFormat (deriveFlags p) (effectiveTimeoutMs p) proc
      (buildCmd (effectiveNmapPath p) (deriveFlags p) (deriveFormatFlag p.outputFormat)
        p.target) = .error err) :
    ((processScan p proc).invoked.length = 2 ↔
      (unreachablePattern err.details = true ∧ jsIncludes (deriveFlags p) "-Pn" = false)) ∧
    ((processScan p proc).invoked.length ≠ 2 →
      (processScan p proc).scanResult.result = .error err ∧
      (processScan p proc).scanResult.resiliency = none) := by
  by_cases hu : unreachablePattern err.details = true
  · by_cases hpn : jsIncludes (deriveFlags p) "-Pn" = true
    · have hc : (isHostUnreachable err.details && !(jsIncludes (deriveFlags p) "-Pn")) = false := by
        simp [hpn]
      simp [processScan, h, hc, hpn, hu]
    · have hpn' : jsIncludes (deriveFlags p) "-Pn" = false := by
        simpa using hpn
      have hiu : isHostUnreachable err.details = true :=
        (isHostUnreachable_iff_pattern _).mpr hu
      cases h2 : runNmap p.target p.outputFormat (deriveFlags p) (effectiveTimeoutMs p) proc
          (buildCmd (effectiveNmapPath p) (deriveFlags p ++ " -Pn")
            (deriveFormatFlag p.outputFormat) p.target) with
      | ok s2 => simp [processScan, h, hiu, hpn', hu, h2]
      | error err2 => simp [processScan, h, hiu, hpn', hu, h2]
  · have hiu : isHostUnreachable err.details = false := by
      cases hb : isHostUnreachable err.details with
      | false => rfl
      | true => exact absurd ((isHostUnreachable_iff_pattern _).mp hb) hu
    simp [processScan, h, hiu, hu]

/-- Closed instantiation of `retry_iff_unreachable`: a concrete item
whose first attempt fails with `0 hosts up` in the details, whose flags
lack `-Pn`, and which therefore retries. -/
theorem retry_iff_unreachable_witness :
    (((processScan pWit procWit).invoked.length = 2 ↔
      (unreachablePattern errWit.details = true ∧
        jsIncludes (deriveFlags pWit) "-Pn" = false)) ∧
     ((processScan pWit procWit).invoked.length ≠ 2 →
      (processScan pWit procWit).scanResult.result = .error errWit ∧
      (processScan pWit procWit).scanResult.resiliency = none)) :=
  retry_iff_unreachable pWit procWit errWit rfl

/-- C2. When the retry triggers, the retry command is the original
command with `-Pn` appended to the existing derived flags (same binary
path, format flag and target); whatever the second attempt yields
becomes the item's final outcome, annotated with a resiliency note
whose `triggered` field is true and whose `firstError` field is the
original first-attempt failure payload. -/
theorem retry_command_and_outcome (p : ItemParams) (proc : String → Rat → ProcResult)
    (err : Failure)
    (h : runNmap p.target p.outputFormat (deriveFlags p) (effectiveTimeoutMs p) proc
      (buildCmd (effectiveNmapPath p) (deriveFlags p) (deriveFormatFlag p.outputFormat)
        p.target) = .error err)
    (hu : isHostUnreachable err.details = true)
    (hpn : jsIncludes (deriveFlags p) "-Pn" = false) :
    (processScan p proc).invoked =
      [buildCmd (effectiveNmapPath p) (deriveFlags p) (deriveFormatFlag p.outputFormat)
        p.target,
       buildCmd (effectiveNmapPath p) (deriveFlags p ++ " -Pn")
        (deriveFormatFlag p.outputFormat) p.target] ∧
    (processScan p proc).scanResult.result =
      runNmap p.target p.outputFormat (deriveFlags p) (effectiveTimeoutMs p) proc
        (buildCmd (effectiveNmapPath p) (deriveFlags p ++ " -Pn")
          (deriveFormatFlag p.outputFormat) p.target) ∧
    (∃ note, (processScan p proc).scanResult.resiliency = some note ∧
      note.triggered = true ∧ note.firstError = err) := by
  cases h2 : runNmap p.target p.outputFormat (deriveFlags p) (effectiveTimeoutMs p) proc
      (buildCmd (effectiveNmapPath p) (deriveFlags p ++ " -Pn")
        (deriveFormatFlag p.outputFormat) p.target) with
  | ok s2 => simp [processScan, h, hu, hpn, h2]
  | error err2 => simp [processScan, h, hu, hpn, h2]

/-- Closed instantiation of `retry_command_and_outcome` at a concrete
item whose first attempt fails with a `0 hosts up` detail. -/
theorem retry_command_and_outcome_witness :
    (processScan pWit procWit).invoked =
      [buildCmd (effectiveNmapPath pWit) (deriveFlags pWit)
        (deriveFormatFlag pWit.outputFormat) pWit.target,
       buildCmd (effectiveNmapPath pWit) (deriveFlags pWit ++ " -Pn")
        (deriveFormatFlag pWit.outputFormat) pWit.target] ∧
    (processScan pWit procWit).scanResult.result =
      runNmap pWit.target pWit.outputFormat (deriveFlags pWit) (effectiveTimeoutMs pWit)
        procWit
        (buildCmd (effectiveNmapPath pWit) (deriveFlags pWit ++ " -Pn")
          (deriveFormatFlag pWit.outputFormat) pWit.target) ∧
    (∃ note, (processScan pWit procWit).scanResult.resiliency = some note ∧
      note.triggered = true ∧ note.firstError = errWit) :=
  retry_command_and_outcome pWit procWit errWit rfl (by decide) (by decide)

/-- C5. The Process Runner is invoked at most twice per item, and
whenever two invocations happen the second command line contains the
`-Pn` override as a substring (so a further unreachable classification
could never produce a third attempt). -/
theorem at_most_two_attempts (p : ItemParams) (proc : String → Rat → ProcResult) :
    (processScan p proc).invoked.length ≤ 2 ∧
    (∀ c1 c2, (processScan p proc).invoked = [c1, c2] → jsIncludes c2 "-Pn" = true) := by
  cases h1 : runNmap p.target p.outputFormat (deriveFlags p) (effectiveTimeoutMs p) proc
      (buildCmd (effectiveNmapPath p) (deriveFlags p) (deriveFormatFlag p.outputFormat)
        p.target) with
  | ok s => simp [processScan, h1]
  | error err =>
      by_cases hc : (isHostUnreachable err.details && !(jsIncludes (deriveFlags p) "-Pn")) = true
      · cases h2 : runNmap p.target p.outputFormat (deriveFlags p) (effectiveTimeoutMs p) proc
            (buildCmd (effectiveNmapPath p) (deriveFlags p ++ " -Pn")
              (deriveFormatFlag p.outputFormat) p.target) with
        | ok s2 =>
            refine ⟨?_, ?_⟩
            · simp [processScan, h1, hc, h2]
            · intro c1 c2 heq
              simp [processScan, h1, hc, h2] at heq
              rw [← heq.2]
              exact retryCmd_includes_pn _ _ _ _
        | error err2 =>
            refine ⟨?_, ?_⟩
            · simp [processScan, h1, hc, h2]
            · intro c1 c2 heq
              simp [processScan, h1, hc, h2] at heq
              rw [← heq.2]
              exact retryCmd_includes_pn _ _ _ _
      · have hc' : (isHostUnreachable err.details && !(jsIncludes (deriveFlags p) "-Pn")) = false := by
          simpa using hc
        simp [processScan, h1, hc']

/-- C9. When the retry triggers and the second attempt succeeds, the
`flags` field of the emitted success outcome and of the history record
is the originally derived base flags (which do not contain `-Pn`),
even though the command actually executed — recorded in the outcome's
`cmd` field — does contain `-Pn`. -/
theorem flags_field_omits_override (p : ItemParams) (proc : String → Rat → ProcResult)
    (parseXml : String → Except String JVal) (now : String) (err : Failure) (s2 : Success)
    (h1 : runNmap p.target p.outputFormat (deriveFlags p) (effectiveTimeoutMs p) proc
      (buildCmd (effectiveNmapPath p) (deriveFlags p) (deriveFormatFlag p.outputFormat)
        p.target) = .error err)
    (hu : isHostUnreachable err.details = true)
    (hpn : jsIncludes (deriveFlags p) "-Pn" = false)
    (h2 : runNmap p.target p.outputFormat (deriveFlags p) (effectiveTimeoutMs p) proc
      (buildCmd (effectiveNmapPath p) (deriveFlags p ++ " -Pn")
        (deriveFormatFlag p.outputFormat) p.target) = .ok s2)
    (hsave : p.saveHistory = true) :
    (processScan p proc).scanResult.result = .ok s2 ∧
    s2.flags = deriveFlags p ∧
    jsIncludes s2.cmd "-Pn" = true ∧
    (∃ hrec, (processItem p proc parseXml now).2 = some hrec ∧
      hrec.flags = deriveFlags p) := by
  have hs2 : s2.flags = deriveFlags p ∧ s2.cmd =
      buildCmd (effectiveNmapPath p) (deriveFlags p ++ " -Pn")
        (deriveFormatFlag p.outputFormat) p.target := by
    unfold runNmap at h2
    cases hp2 : proc (buildCmd (effectiveNmapPath p) (deriveFlags p ++ " -Pn")
        (deriveFormatFlag p.outputFormat) p.target) (effectiveTimeoutMs p) with
    | ok stdout =>
        rw [hp2] at h2
        simp only [Except.ok.injEq] at h2
        rw [← h2]
        exact ⟨rfl, rfl⟩
    | failed m so se =>
        rw [hp2] at h2
        simp at h2
  refine ⟨?_, hs2.1, ?_, ?_⟩
  · simp [processScan, h1, hu, hpn, h2]
  · rw [hs2.2]
    exact retryCmd_includes_pn _ _ _ _
  · simp only [processItem, hsave, if_true]
    exact ⟨_, rfl, rfl⟩

/-- Closed instantiation of `flags_field_omits_override`: the oracle
fails on the first command and succeeds on the `-Pn` one. -/
theorem flags_field_omits_override_witness :
    (processScan pWit procWit).scanResult.result = .ok s2Wit ∧
    s2Wit.flags = deriveFlags pWit ∧
    jsIncludes s2Wit.cmd "-Pn" = true ∧
    (∃ hrec, (processItem pWit procWit parseWit "t0").2 = some hrec ∧
      hrec.flags = deriveFlags pWit) :=
  flags_field_omits_override pWit procWit parseWit "t0" errWit s2Wit
    rfl (by decide) (by decide) rfl rfl

theorem executeGo_ok (proc : String → Rat → ProcResult)
    (parseXml : String → Except String JVal) (now : String) (sinkOk : Nat → Bool)
    (hs : ∀ k, sinkOk k = true) :
    ∀ (items : List ItemParams) (k : Nat) (acc : List Emitted),
      ∃ outs, executeGo proc parseXml now sinkOk items k acc = .ok outs ∧
        outs.length = acc.length + items.length := by
  intro items
  induction items with
  | nil =>
      intro k acc
      exact ⟨acc.reverse, rfl, by simp⟩
  | cons p rest ih =>
      intro k acc
      cases hh : (processItem p proc parseXml now).2 with
      | none =>
          obtain ⟨outs, h1, h2⟩ := ih k ((processItem p proc parseXml now).1 :: acc)
          refine ⟨outs, ?_, ?_⟩
          · simp only [executeGo, hh]
            exact h1
          · rw [h2]
            simp
            omega
      | some hrec =>
          obtain ⟨outs, h1, h2⟩ := ih (k + 1) ((processItem p proc parseXml now).1 :: acc)
          refine ⟨outs, ?_, ?_⟩
          · simp only [executeGo, hh, hs k, if_true]
            exact h1
          · rw [h2]
            simp
            omega

/-- C8 (amended). Scan failures and parse failures are confined to
their item: as long as every history append succeeds (in particular
whatever the subprocess and XML oracles do), the batch loop emits
exactly one result per input item. A failing `fs.appendFileSync`,
however, throws outside any `try` and aborts the whole `execute` call
(see `history_write_aborts_batch`). -/
theorem batch_isolation_when_sink_ok (items : List ItemParams)
    (proc : String → Rat → ProcResult) (parseXml : String → Except String JVal)
    (now : String) (sinkOk : Nat → Bool) (hs : ∀ k, sinkOk k = true) :
    ∃ outs, executeAll items proc parseXml now sinkOk = .ok outs ∧
      outs.length = items.length := by
  obtain ⟨outs, h1, h2⟩ := executeGo_ok proc parseXml now sinkOk hs items 0 []
  exact ⟨outs, h1, by simpa using h2⟩

/-- Closed instantiation of `batch_isolation_when_sink_ok` on a
one-item batch with a succeeding sink. -/
theorem batch_isolation_witness :
    ∃ outs, executeAll [pWit] procWit parseWit "t0" (fun _ => true) = .ok outs ∧
      outs.length = [pWit].length :=
  batch_isolation_when_sink_ok [pWit] procWit parseWit "t0" (fun _ => true)
    (fun _ => rfl)

/-- C8 (counterexample). With a sink whose appends throw, a two-item
batch whose first item has `saveHistory` on yields no emitted results
at all: the exception escapes `execute`, so the second item is never
processed and neither item contributes a result — the claim that a
history-write failure cannot prevent later items from being processed
fails on the code. -/
theorem history_write_aborts_batch :
    executeAll [pWit, pWit] procWit parseWit "t0" (fun _ => false) = .error () := rfl

/-- C4. A genuine scan summary is present in the emitted result iff the
final outcome is a success, the output format is `xml`, summarisation
(`smartResult`) was requested, and the payload parsed without
structural error — i.e. the XML parser produced a document on which
`makeSummary`'s extraction ran to completion. In every other case the
emitted `summary` is absent or the single error marker
(`errorMarker`, the `error:true, details` object); it is one optional
field, so a summary and a marker can never both be present. -/
theorem summary_present_iff (p : ItemParams) (proc : String → Rat → ProcResult)
    (parseXml : String → Except String JVal) (now : String) :
    ((∃ s, (processItem p proc parseXml now).1.summary = some (.summary s)) ↔
      (∃ sc doc s, (processItem p proc parseXml now).1.scan.result = .ok sc ∧
        p.smartResult = true ∧ p.outputFormat = "xml" ∧
        parseXml sc.output = .ok doc ∧ makeSummaryCore doc = .ok s)) ∧
    ((processItem p proc parseXml now).1.summary = none ∨
     (∃ d, (processItem p proc parseXml now).1.summary = some (.errorMarker d)) ∨
     (∃ s, (processItem p proc parseXml now).1.summary = some (.summary s))) := by
  constructor
  · cases hres : (processScan p proc).scanResult.result with
    | error err => simp [processItem, summaryStage, hres]
    | ok sc =>
        by_cases hsm : p.smartResult = true
        · by_cases hfmt : p.outputFormat = "xml"
          · cases hp : parseXml sc.output with
            | error e => simp [processItem, summaryStage, hres, hsm, hfmt, hp]
            | ok doc =>
                cases hms : makeSummaryCore doc with
                | ok s =>
                    simp [processItem, summaryStage, hres, hsm, hfmt, hp,
                      makeSummary, hms]
                | error u =>
                    cases u
                    simp [processItem, summaryStage, hres, hsm, hfmt, hp,
                      makeSummary, hms]
          · simp [processItem, summaryStage, hres, hsm, hfmt]
        · simp [processItem, summaryStage, hres, hsm]
  · cases hsum : (processItem p proc parseXml now).1.summary with
    | none => exact Or.inl rfl
    | some x =>
        cases x with
        | errorMarker d => exact Or.inr (Or.inl ⟨d, rfl⟩)
        | summary s => exact Or.inr (Or.inr ⟨s, rfl⟩)

theorem except_bind_ok {ε α β : Type} (a : α) (f : α → Except ε β) :
    (Except.ok a : Except ε α) >>= f = f a := rfl

theorem except_bind_error {ε α β : Type} (e : ε) (f : α → Except ε β) :
    (Except.error e : Except ε α) >>= f = .error e := rfl

theorem except_pure {ε α : Type} (a : α) :
    (pure a : Except ε α) = .ok a := rfl

/-- C6. Port-shape normalisation in the summary extractor. First: for
a well-formed document whose `ports` field is absent or whose
`ports.port` is an empty list, the summary is produced (not an error)
with an empty `openPorts` and `totalOpen = 0`. Second: for a document
whose `ports.port` is a single non-list port record in the open state,
`openPorts` is exactly the one-element list of that record's extracted
entry, so the singular shape is normalised into a list before
filtering. -/
theorem ports_normalization :
    (∀ (parsed nm host stv adv pv : JVal),
      parsed.get "nmaprun" = .ok nm → nm.get "host" = .ok host →
      statusOf host = .ok stv → addressOf host = .ok adv →
      portsOf host = .ok pv → (pv = .undefined ∨ pv = .arr []) →
      ∃ s, makeSummary parsed = .summary s ∧ s.openPorts = [] ∧
        s.totalOpen = 0 ∧ s.vulns = []) ∧
    (∀ (parsed nm host stv adv pv : JVal) (entry : PortEntry) (fnd : List ScriptFinding),
      parsed.get "nmaprun" = .ok nm → nm.get "host" = .ok host →
      statusOf host = .ok stv → addressOf host = .ok adv →
      portsOf host = .ok pv → pv.isArr = false → jsTruthy pv = true →
      singularOpenCheck pv = .ok true → portEntryOf pv = .ok entry →
      scriptFindingsOfPort pv = .ok fnd →
      ∃ s, makeSummary parsed = .summary s ∧ s.openPorts = [entry] ∧
        s.totalOpen = 1) := by
  constructor
  · intro parsed nm host stv adv pv h1 h2 h3 h4 h5 h6
    rcases h6 with h6 | h6 <;> subst h6 <;>
      simp [makeSummary, makeSummaryCore, h1, h2, h3, h4, h5, except_bind_ok,
        except_pure, computeOpenPorts, filterOpen, jsTruthy, portEntries,
        allScriptFindings]
  · intro parsed nm host stv adv pv entry fnd h1 h2 h3 h4 h5 harr htr hsc hpe hsf
    cases pv with
    | undefined => simp [jsTruthy] at htr
    | arr l => simp [JVal.isArr] at harr
    | str s =>
        simp [singularOpenCheck, JVal.get, JVal.isUndefined, except_bind_ok,
          except_pure] at hsc
    | obj fs =>
        simp [makeSummary, makeSummaryCore, h1, h2, h3, h4, h5, except_bind_ok,
          except_pure, computeOpenPorts, jsTruthy, hsc, hpe, hsf, portEntries,
          allScriptFindings]

/-- Well-formed host fixture with status and address but no ports. -/
def hostWitA : JVal :=
  .obj [("status", .obj [("$", .obj [("state", .str "up")])]),
        ("address", .obj [("$", .obj [("addr", .str "1.2.3.4")])])]

/-- Parsed-document fixture around `hostWitA`. -/
def parsedWitA : JVal :=
  .obj [("nmaprun", .obj [("host", hostWitA)])]

/-- A single open port record (singular, not wrapped in a list). -/
def portWitB : JVal :=
  .obj [("$", .obj [("portid", .str "80")]),
        ("state", .obj [("$", .obj [("state", .str "open")])])]

/-- Host fixture whose `ports.port` is the singular record `portWitB`. -/
def hostWitB : JVal :=
  .obj [("status", .obj [("$", .obj [("state", .str "up")])]),
        ("address", .obj [("$", .obj [("addr", .str "1.2.3.4")])]),
        ("ports", .obj [("port", portWitB)])]

/-- Parsed-document fixture around `hostWitB`. -/
def parsedWitB : JVal :=
  .obj [("nmaprun", .obj [("host", hostWitB)])]

/-- Closed instantiation of both parts of `ports_normalization`: the
portless document yields an empty summary, the singular-open-port
document yields a one-entry `openPorts`. -/
theorem ports_normalization_witness :
    (∃ s, makeSummary parsedWitA = .summary s ∧ s.openPorts = [] ∧
      s.totalOpen = 0 ∧ s.vulns = []) ∧
    (∃ s, makeSummary parsedWitB = .summary s ∧
      s.openPorts = [⟨.str "80", .str "", .str "", .str "", .str ""⟩] ∧
      s.totalOpen = 1) :=
  ⟨ports_normalization.1 parsedWitA (.obj [("host", hostWitA)]) hostWitA
      (.str "up") (.str "1.2.3.4") .undefined rfl rfl rfl rfl rfl (Or.inl rfl),
   ports_normalization.2 parsedWitB (.obj [("host", hostWitB)]) hostWitB
      (.str "up") (.str "1.2.3.4") portWitB
      ⟨.str "80", .str "", .str "", .str "", .str ""⟩ []
      rfl rfl rfl rfl rfl rfl rfl rfl rfl rfl⟩

/-- C10. The timeout actually handed to the subprocess runner: a
`timeout` parameter whose `Number(...)` coercion is `NaN` (`none`) or
`0` is replaced by the default 60 seconds, i.e. 60000 milliseconds;
every other numeric value `v` (negative values included) yields
`v * 1000` milliseconds. -/
theorem timeout_coercion (p : ItemParams) :
    ((p.timeoutValue = none ∨ p.timeoutValue = some 0) →
      effectiveTimeoutMs p = 60000) ∧
    (∀ v : Rat, p.timeoutValue = some v → v ≠ 0 →
      effectiveTimeoutMs p = v * 1000) := by
  constructor
  · rintro (h | h) <;> simp [effectiveTimeoutMs, coercedTimeout, jsOrNum, h] <;> norm_num
  · intro v hv hnz
    simp [effectiveTimeoutMs, coercedTimeout, jsOrNum, hv, hnz]

end NmapNode
